import Mathlib

set_option autoImplicit false

/-!
Verification development for the blueprint generation-and-revision engine
(`main.py` of the floor-planner repository).

The engine is shallowly embedded:
* JSON documents become the inductive `Json`; `json.loads` becomes the
  fuel-based recursive-descent parser `Json.parse` (numbers are read as
  rationals, objects keep Python dict semantics: insertion order of the
  first occurrence of a key, value of the last).
* Python string operations used by `_parse_blueprint_response`
  (`in`, `find`, slicing with a possibly negative end, `strip`) become
  `pyFind`, `pySlice`, `pyStrip` on `List Char`.
* The external Gemini call becomes a function of an explicit `ApiOutcome`
  describing what the network/service did.
* The stateful generator object becomes `GeneratorState` with operations
  returning `Except PyErr`, where `PyErr.valueError` models the explicit
  `raise ValueError(...)` precondition rejections and `PyErr.otherError`
  models any other propagated Python exception.
-/

/-- JSON values, as produced by `json.loads`.  Numbers are modelled as
rationals (Python ints and floats compare equal when numerically equal,
which `Rat` reflects); objects are association lists in Python dict order. -/
inductive Json where
  | null
  | bool (b : Bool)
  | num (q : Rat)
  | str (s : String)
  | arr (elems : List Json)
  | obj (fields : List (String × Json))

/-- First-match association-list lookup; Python `dict.__getitem__` /
`dict.get` on the dictionaries built by `dictify`. -/
def getk {α : Type} (kvs : List (String × α)) (k : String) : Option α :=
  match kvs with
  | [] => none
  | (k', v) :: t => if k' = k then some v else getk t k

/-- Python dict assignment `d[k] = v`: replace the value at the first
occurrence of `k`, else append the binding at the end. -/
def setk {α : Type} (kvs : List (String × α)) (k : String) (v : α) : List (String × α) :=
  match kvs with
  | [] => [(k, v)]
  | (k', v') :: t => if k' = k then (k, v) :: t else (k', v') :: setk t k v

/-- Python `k in d` on a dict. -/
def hask {α : Type} (kvs : List (String × α)) (k : String) : Bool :=
  (getk kvs k).isSome

/-- The double-quote character, kept out of character-literal position. -/
def quoteChar : Char := Char.ofNat 34

/-- JSON inter-token whitespace accepted by `json.loads`. -/
def jsonWs (c : Char) : Bool :=
  c = ' ' || c = '\t' || c = '\n' || c = '\r'

/-- Decimal digits to a natural number. -/
def digitsToNat (ds : List Char) : Nat :=
  ds.foldl (fun a c => a * 10 + (c.toNat - 48)) 0

/-- Value of a hexadecimal digit. -/
def hexVal (c : Char) : Option Nat :=
  if '0' ≤ c ∧ c ≤ '9' then some (c.toNat - 48)
  else if 'a' ≤ c ∧ c ≤ 'f' then some (c.toNat - 87)
  else if 'A' ≤ c ∧ c ≤ 'F' then some (c.toNat - 55)
  else none

/-- Characters that may continue a number token (the lexer collects them
greedily; `parseNumber` validates the collected token). -/
def numChar (c : Char) : Bool :=
  c.isDigit || c = '.' || c = 'e' || c = 'E' || c = '+' || c = '-'

/-- Assemble a rational from sign, integer digits, fraction digits and a
decimal exponent, using `mkRat` so that the result reduces to normal form
definitionally. -/
def mkNum (neg : Bool) (ids fds : List Char) (eneg : Bool) (e : Nat) : Rat :=
  let m : Int := (digitsToNat (ids ++ fds) : Nat)
  let m2 : Int := if neg then -m else m
  if eneg then mkRat m2 (10 ^ (fds.length + e))
  else mkRat (m2 * (10 : Int) ^ e) (10 ^ fds.length)

/-- Exponent digits (after `e`/`E`). -/
def parseExpDigits (neg : Bool) (ids fds : List Char) (cs : List Char) :
    Option (Rat × List Char) :=
  let p := match cs with
    | '+' :: r => (false, r)
    | '-' :: r => (true, r)
    | _ => (false, cs)
  let q := p.2.span Char.isDigit
  if q.1.isEmpty then none
  else some (mkNum neg ids fds p.1 (digitsToNat q.1), q.2)

/-- Optional exponent part of a number. -/
def parseExpPart (neg : Bool) (ids fds : List Char) (cs : List Char) :
    Option (Rat × List Char) :=
  match cs with
  | 'e' :: t => parseExpDigits neg ids fds t
  | 'E' :: t => parseExpDigits neg ids fds t
  | _ => some (mkNum neg ids fds false 0, cs)

/-- A JSON number in the strict `json` grammar (no leading zeros, a dot or
exponent must be followed by digits). -/
def parseNumber (cs : List Char) : Option (Rat × List Char) :=
  let p := match cs with
    | '-' :: r => (true, r)
    | _ => (false, cs)
  let q := p.2.span Char.isDigit
  if q.1.isEmpty then none
  else if 1 < q.1.length ∧ q.1.head? = some '0' then none
  else
    match q.2 with
    | '.' :: t =>
      let f := t.span Char.isDigit
      if f.1.isEmpty then none else parseExpPart p.1 q.1 f.1 f.2
    | _ => parseExpPart p.1 q.1 [] q.2

/-- Python dict construction from the textual key/value pairs of an object:
insert left to right, later duplicates overwrite in place. -/
def dictify (pairs : List (String × Json)) : List (String × Json) :=
  pairs.foldl (fun d p => setk d p.1 p.2) []

/-- A partially read container on the parser stack: an array with the
elements read so far (in reverse), or an object with the members read so
far (in reverse) and the key whose value is pending. -/
inductive SFrame where
  | inArr (done : List Json)
  | inObj (done : List (String × Json)) (curKey : Option String)

/-- Lexical mode of the parser: between tokens, inside a string (plain /
after a backslash / inside a `\u` escape), inside a number token, or
inside a `true`/`false`/`null` literal with the given characters still
expected. -/
inductive LMode where
  | ready
  | str (acc : List Char)
  | strEsc (acc : List Char)
  | strHex (acc : List Char) (hexs : List Nat)
  | num (acc : List Char)
  | lit (v : Json) (rest : List Char)

/-- What the grammar allows next when between tokens. -/
inductive Expect where
  | val
  | valOrCloseA
  | memOrCloseO
  | commaCloseA
  | commaCloseO
  | keyStr
  | colon
  | finished

/-- Parser state: a hard failure (Python `JSONDecodeError`), or a running
state with lexical mode, grammar expectation, container stack, and the
completed top-level value once there is one. -/
inductive PState where
  | fail
  | run (mode : LMode) (expect : Expect) (stack : List SFrame) (result : Option Json)

/-- A completed value is appended to the enclosing container (or becomes
the top-level result). -/
def emitVal (v : Json) (stack : List SFrame) (result : Option Json) : PState :=
  match stack with
  | [] => .run .ready .finished [] (some v)
  | .inArr done :: rest => .run .ready .commaCloseA (.inArr (v :: done) :: rest) result
  | .inObj done (some k) :: rest =>
    .run .ready .commaCloseO (.inObj ((k, v) :: done) none :: rest) result
  | .inObj _ none :: _ => .fail

/-- `]`: close the innermost array. -/
def closeArr (stack : List SFrame) (result : Option Json) : PState :=
  match stack with
  | .inArr done :: rest => emitVal (.arr done.reverse) rest result
  | _ => .fail

/-- `}`: close the innermost object. -/
def closeObj (stack : List SFrame) (result : Option Json) : PState :=
  match stack with
  | .inObj done none :: rest => emitVal (.obj (dictify done.reverse)) rest result
  | _ => .fail

/-- A character that must start a value. -/
def startVal (c : Char) (expect : Expect) (stack : List SFrame) (result : Option Json) :
    PState :=
  if c = '{' then .run .ready .memOrCloseO (.inObj [] none :: stack) result
  else if c = '[' then .run .ready .valOrCloseA (.inArr [] :: stack) result
  else if c = quoteChar then .run (.str []) expect stack result
  else if c = 't' then .run (.lit (.bool true) "rue".data) expect stack result
  else if c = 'f' then .run (.lit (.bool false) "alse".data) expect stack result
  else if c = 'n' then .run (.lit .null "ull".data) expect stack result
  else if c.isDigit || c = '-' then .run (.num [c]) expect stack result
  else .fail

/-- A non-whitespace character arriving between tokens, dispatched on what
the grammar expects. -/
def stepPunct (c : Char) (expect : Expect) (stack : List SFrame) (result : Option Json) :
    PState :=
  match expect with
  | .val => startVal c .val stack result
  | .valOrCloseA => if c = ']' then closeArr stack result else startVal c .valOrCloseA stack result
  | .memOrCloseO =>
    if c = quoteChar then .run (.str []) .memOrCloseO stack result
    else if c = '}' then closeObj stack result
    else .fail
  | .keyStr => if c = quoteChar then .run (.str []) .keyStr stack result else .fail
  | .commaCloseA =>
    if c = ',' then .run .ready .val stack result
    else if c = ']' then closeArr stack result
    else .fail
  | .commaCloseO =>
    if c = ',' then .run .ready .keyStr stack result
    else if c = '}' then closeObj stack result
    else .fail
  | .colon => if c = ':' then .run .ready .val stack result else .fail
  | .finished => .fail

/-- A closing quote: the string is a member key if one is expected,
otherwise a value. -/
def endStr (acc : List Char) (expect : Expect) (stack : List SFrame) (result : Option Json) :
    PState :=
  match expect with
  | .memOrCloseO | .keyStr =>
    match stack with
    | .inObj done none :: rest =>
      .run .ready .colon (.inObj done (some ⟨acc.reverse⟩) :: rest) result
    | _ => .fail
  | .val | .valOrCloseA => emitVal (.str ⟨acc.reverse⟩) stack result
  | _ => .fail

/-- A number token ends: validate it with `parseNumber` (which must consume
it entirely) and emit the value. -/
def endNum (acc : List Char) (stack : List SFrame) (result : Option Json) : PState :=
  match parseNumber acc.reverse with
  | some (q, []) => emitVal (.num q) stack result
  | _ => .fail

/-- Single-character string escapes of JSON. -/
def escChar (e : Char) : Option Char :=
  if e = quoteChar then some quoteChar
  else if e = '\\' then some '\\'
  else if e = '/' then some '/'
  else if e = 'n' then some '\n'
  else if e = 't' then some '\t'
  else if e = 'r' then some '\r'
  else if e = 'b' then some (Char.ofNat 8)
  else if e = 'f' then some (Char.ofNat 12)
  else none

/-- One character of input. -/
def stepChar (st : PState) (c : Char) : PState :=
  match st with
  | .fail => .fail
  | .run mode expect stack result =>
    match mode with
    | .ready =>
      if jsonWs c then .run .ready expect stack result
      else stepPunct c expect stack result
    | .str acc =>
      if c = quoteChar then endStr acc expect stack result
      else if c = '\\' then .run (.strEsc acc) expect stack result
      else if c.toNat < 32 then .fail
      else .run (.str (c :: acc)) expect stack result
    | .strEsc acc =>
      if c = 'u' then .run (.strHex acc []) expect stack result
      else
        match escChar c with
        | some d => .run (.str (d :: acc)) expect stack result
        | none => .fail
    | .strHex acc hexs =>
      match hexVal c with
      | some h =>
        match hexs with
        | [h3, h2, h1] =>
          .run (.str (Char.ofNat (((h1 * 16 + h2) * 16 + h3) * 16 + h) :: acc)) expect stack result
        | _ => .run (.strHex acc (h :: hexs)) expect stack result
      | none => .fail
    | .num acc =>
      if numChar c then .run (.num (c :: acc)) expect stack result
      else
        match endNum acc stack result with
        | .run _ e2 sk2 r2 =>
          if jsonWs c then .run .ready e2 sk2 r2 else stepPunct c e2 sk2 r2
        | st2 => st2
    | .lit v rest =>
      match rest with
      | r0 :: rrest =>
        if c = r0 then
          match rrest with
          | [] => emitVal v stack result
          | _ => .run (.lit v rrest) expect stack result
        else .fail
      | [] => .fail

/-- Feed a list of characters to the parser.  The state is matched open at
every step so that each intermediate state is reduced before the next
character is consumed. -/
def runChars : PState → List Char → PState
  | .fail, _ => .fail
  | .run m e sk r, [] => .run m e sk r
  | .run m e sk r, c :: t => runChars (stepChar (.run m e sk r) c) t

/-- End of input: a pending number token may still complete; otherwise the
parse succeeded exactly if a top-level value was finished. -/
def parseFinish (st : PState) : Option Json :=
  match st with
  | .fail => none
  | .run mode expect stack result =>
    match mode with
    | .ready =>
      match expect, result with
      | .finished, some j => some j
      | _, _ => none
    | .num acc =>
      match endNum acc stack result with
      | .run _ .finished _ (some j) => some j
      | _ => none
    | _ => none

/-- `json.loads` as a character-level pushdown automaton. -/
def Json.parse (cs : List Char) : Option Json :=
  parseFinish (runChars (.run .ready .val [] none) cs)

/-- Whitespace stripped by Python `str.strip()` (ASCII part). -/
def pyWs (c : Char) : Bool :=
  c = ' ' || c = '\t' || c = '\n' || c = '\r' || c = '\x0b' || c = '\x0c'

/-- Python `s.strip()`. -/
def pyStrip (s : List Char) : List Char :=
  ((s.dropWhile pyWs).reverse.dropWhile pyWs).reverse

/-- Index (counting from `i`) of the first occurrence of `needle`. -/
def findSubFrom (needle : List Char) (i : Nat) : List Char → Option Nat
  | [] => if needle.isEmpty then some i else none
  | hay@(_ :: t) =>
    if needle.isPrefixOf hay then some i else findSubFrom needle (i + 1) t

/-- Python `s.find(needle, start)`, with `none` for Python's `-1`. -/
def pyFind (s needle : List Char) (start : Nat) : Option Nat :=
  findSubFrom needle start (s.drop start)

/-- Python slice `s[a:b]` for non-negative bounds. -/
def pySlice (s : List Char) (a b : Nat) : List Char :=
  (s.take b).drop a

/-- The characters of the hand-authored fallback blueprint text, assembled
line by line (byte-for-byte the Python string literal of
`_get_fallback_response`). -/
def fallbackChars : List Char :=
  "\n".data
  ++ "\x7b\n".data
  ++ "  \"building_info\": \x7b\n".data
  ++ "    \"type\": \"residential_house\",\n".data
  ++ "    \"total_area\": 150.0,\n".data
  ++ "    \"floors\": 2,\n".data
  ++ "    \"occupancy\": \"family\",\n".data
  ++ "    \"special_features\": [\"parking\", \"garden\"],\n".data
  ++ "    \"budget_level\": \"standard\"\n".data
  ++ "  \x7d,\n".data
  ++ "  \"floor_plans\": [\n".data
  ++ "    \x7b\n".data
  ++ "      \"floor_number\": 1,\n".data
  ++ "      \"area\": 75.0,\n".data
  ++ "      \"rooms\": [\n".data
  ++ "        \x7b\n".data
  ++ "          \"name\": \"Living Room\",\n".data
  ++ "          \"type\": \"living\",\n".data
  ++ "          \"dimensions\": \x7b\n".data
  ++ "            \"width\": 6.0,\n".data
  ++ "            \"length\": 8.0,\n".data
  ++ "            \"area\": 48.0\n".data
  ++ "          \x7d,\n".data
  ++ "          \"position\": \x7b\n".data
  ++ "            \"x\": 0,\n".data
  ++ "            \"y\": 0\n".data
  ++ "          \x7d,\n".data
  ++ "          \"direction\": \"Center\",\n".data
  ++ "          \"features\": [\"natural_light\", \"main_entrance\"],\n".data
  ++ "          \"color\": \"#e3f2fd\"\n".data
  ++ "        \x7d,\n".data
  ++ "        \x7b\n".data
  ++ "          \"name\": \"Kitchen\",\n".data
  ++ "          \"type\": \"kitchen\", \n".data
  ++ "          \"dimensions\": \x7b\n".data
  ++ "            \"width\": 4.0,\n".data
  ++ "            \"length\": 5.0,\n".data
  ++ "            \"area\": 20.0\n".data
  ++ "          \x7d,\n".data
  ++ "          \"position\": \x7b\n".data
  ++ "            \"x\": 8,\n".data
  ++ "            \"y\": 0\n".data
  ++ "          \x7d,\n".data
  ++ "          \"direction\": \"East\",\n".data
  ++ "          \"features\": [\"ventilation\", \"plumbing\"],\n".data
  ++ "          \"color\": \"#e8f5e8\"\n".data
  ++ "        \x7d\n".data
  ++ "      ]\n".data
  ++ "    \x7d,\n".data
  ++ "    \x7b\n".data
  ++ "      \"floor_number\": 2,\n".data
  ++ "      \"area\": 75.0,\n".data
  ++ "      \"rooms\": [\n".data
  ++ "        \x7b\n".data
  ++ "          \"name\": \"Master Bedroom\",\n".data
  ++ "          \"type\": \"bedroom\",\n".data
  ++ "          \"dimensions\": \x7b\n".data
  ++ "            \"width\": 5.0,\n".data
  ++ "            \"length\": 6.0,\n".data
  ++ "            \"area\": 30.0\n".data
  ++ "          \x7d,\n".data
  ++ "          \"position\": \x7b\n".data
  ++ "            \"x\": 0,\n".data
  ++ "            \"y\": 0\n".data
  ++ "          \x7d,\n".data
  ++ "          \"direction\": \"North\",\n".data
  ++ "          \"features\": [\"natural_light\", \"ensuite\"],\n".data
  ++ "          \"color\": \"#f3e5f5\"\n".data
  ++ "        \x7d\n".data
  ++ "      ]\n".data
  ++ "    \x7d\n".data
  ++ "  ],\n".data
  ++ "  \"design_constraints\": \x7b\n".data
  ++ "    \"building_codes\": [\"local_residential_code\"],\n".data
  ++ "    \"min_room_dimensions\": \x7b\n".data
  ++ "      \"bedroom\": \x7b\"min_area\": 12, \"min_width\": 3\x7d,\n".data
  ++ "      \"bathroom\": \x7b\"min_area\": 6, \"min_width\": 2\x7d\n".data
  ++ "    \x7d\n".data
  ++ "  \x7d,\n".data
  ++ "  \"metadata\": \x7b\n".data
  ++ "    \"created_date\": \"2025-01-01T00:00:00\",\n".data
  ++ "    \"version\": \"1.0\",\n".data
  ++ "    \"generator\": \"Gemini Blueprint System\"\n".data
  ++ "  \x7d\n".data
  ++ "\x7d\n".data

/-- The fallback blueprint text returned by `_get_fallback_response`. -/
def get_fallback_response : String :=
  String.mk fallbackChars

/-- Payload selection of `_parse_blueprint_response` (lines 357-366 of
`main.py`): prefer a fence tagged `json`, else any fence, else the whole
text; the end bound is Python `find`'s result, which is `-1` when there is
no closing fence, so the slice `response[start:-1]` stops one character
short of the end in that case. -/
def extract_json_str (response : List Char) : List Char :=
  match pyFind response "```json".data 0 with
  | some i =>
    match pyFind response "```".data (i + 7) with
    | some e => pyStrip (pySlice response (i + 7) e)
    | none => pyStrip (pySlice response (i + 7) (response.length - 1))
  | none =>
    match pyFind response "```".data 0 with
    | some i =>
      match pyFind response "```".data (i + 3) with
      | some e => pyStrip (pySlice response (i + 3) e)
      | none => pyStrip (pySlice response (i + 3) (response.length - 1))
    | none => pyStrip response

/-- `_parse_blueprint_response`: extract the payload and parse it; on a
parse failure return the parse of the canonical fallback text instead
(`none` would mean that even the fallback text failed to parse, which is
the only way the Python function can raise). -/
def parse_blueprint_response (response : String) : Option Json :=
  match Json.parse (extract_json_str response.data) with
  | some j => some j
  | none => Json.parse get_fallback_response.data

/-- The canonical fallback document: the parsed form of the fixed fallback
text. -/
def canonical_fallback_doc : Option Json := Json.parse get_fallback_response.data

/-- The known building types (`BUILDING_TYPES` in `main.py`). -/
def BUILDING_TYPES : List String :=
  ["residential_house", "apartment_complex", "office_building", "retail_store",
   "restaurant", "warehouse", "school", "hospital", "clinic", "hotel",
   "shopping_mall", "gym_fitness_center", "library", "community_center",
   "industrial_facility"]

/-- The request record (`BuildingRequirements` in `main.py`); the float
`total_area` becomes a rational. -/
structure BuildingRequirements where
  building_type : String
  total_area : Rat
  floors : Int
  occupancy : String
  special_features : List String
  budget_level : String

/-- The fixed room-type → hex-colour table of `_get_default_room_color`. -/
def color_map : List (String × String) :=
  [("living", "#e3f2fd"), ("bedroom", "#f3e5f5"), ("kitchen", "#e8f5e8"),
   ("bathroom", "#fff3e0"), ("office", "#e1f5fe"), ("dining", "#fce4ec"),
   ("storage", "#f5f5f5"), ("hallway", "#f9f9f9"), ("lobby", "#e0f2f1"),
   ("conference", "#fff8e1"), ("medical", "#e8eaf6"), ("lab", "#f1f8e9"),
   ("ward", "#fafafa")]

/-- `_get_default_room_color`: look the room type up in the colour table;
anything unknown (including a non-string type value, on which Python's
`dict.get` also just misses) gets the neutral gray. -/
def get_default_room_color (room_type : Json) : String :=
  match room_type with
  | .str s =>
    match getk color_map s with
    | some c => c
    | none => "#f5f5f5"
  | _ => "#f5f5f5"

/-- The pure threshold cascade of `_calculate_room_direction`
(lines 196-214 of `main.py`), as a function of the coordinates. -/
def direction_from_xy (x y : Rat) : String :=
  if x < -5 ∧ y > 5 then "Northwest"
  else if x > 5 ∧ y > 5 then "Northeast"
  else if x < -5 ∧ y < -5 then "Southwest"
  else if x > 5 ∧ y < -5 then "Southeast"
  else if x < -2 then "West"
  else if x > 2 then "East"
  else if y > 2 then "North"
  else if y < -2 then "South"
  else "Center"

/-- `_calculate_room_direction`: read `position` (defaulting to the origin
when the key is missing), read `x` and `y` (defaulting to `0`), and apply
the threshold cascade.  `none` models the `TypeError` Python raises when
`position` is not a dict or a coordinate is not a number (Python only
raises when a comparison actually reaches the bad coordinate; the model is
uniformly strict there). -/
def calculate_room_direction (room : List (String × Json)) : Option String :=
  match (match getk room "position" with
         | some p => p
         | none => Json.obj [("x", Json.num 0), ("y", Json.num 0)]) with
  | .obj pkv =>
    match (match getk pkv "x" with
           | some v => v
           | none => Json.num 0),
          (match getk pkv "y" with
           | some v => v
           | none => Json.num 0) with
    | .num x, .num y => some (direction_from_xy x y)
    | _, _ => none
  | _ => none

/-- The per-room body of `_validate_and_fix_blueprint`: fill in a missing
`direction` (computed from the position), a missing `features` (empty
list), and a missing `color` (default by `type`).  Pre-existing values are
left untouched.  `none` models a propagated Python exception (non-dict
room, or a direction computation that raises). -/
def fix_room (room : Json) : Option Json :=
  match room with
  | .obj kvs0 =>
    let step1 : Option (List (String × Json)) :=
      if hask kvs0 "direction" then some kvs0
      else
        match calculate_room_direction kvs0 with
        | some d => some (setk kvs0 "direction" (.str d))
        | none => none
    match step1 with
    | none => none
    | some kvs1 =>
      let kvs2 := if hask kvs1 "features" then kvs1 else setk kvs1 "features" (.arr [])
      let kvs3 :=
        if hask kvs2 "color" then kvs2
        else
          let t := match getk kvs2 "type" with
            | some v => v
            | none => .str "general"
          setk kvs2 "color" (.str (get_default_room_color t))
      some (.obj kvs3)
  | _ => none

/-- One floor plan of `_validate_and_fix_blueprint`: fix every room in
`floor_plan.get("rooms", [])` (no `rooms` key means nothing to do;
a non-list value raises). -/
def fix_floor (fp : Json) : Option Json :=
  match fp with
  | .obj fkv =>
    match getk fkv "rooms" with
    | none => some fp
    | some (.arr rooms) =>
      match rooms.mapM fix_room with
      | some rooms' => some (.obj (setk fkv "rooms" (.arr rooms')))
      | none => none
    | some _ => none
  | _ => none

/-- `_validate_and_fix_blueprint`: fix every room of every floor plan of
`blueprint.get("floor_plans", [])` in place; the `requirements` argument is
accepted but unused.  `none` models a propagated Python exception. -/
def validate_and_fix_blueprint (blueprint : Json) (requirements : Option BuildingRequirements) :
    Option Json :=
  match blueprint with
  | .obj kvs =>
    match getk kvs "floor_plans" with
    | none => some blueprint
    | some (.arr fps) =>
      match fps.mapM fix_floor with
      | some fps' => some (.obj (setk kvs "floor_plans" (.arr fps')))
      | none => none
    | some _ => none
  | _ => none

/-- The rooms of one floor plan, as iterated by the normalizer. -/
def floorRooms (fp : Json) : List Json :=
  match fp with
  | .obj fkv =>
    match getk fkv "rooms" with
    | some (.arr rooms) => rooms
    | _ => []
  | _ => []

/-- What the external service did with one request: the body is either
un-decodable (`response.json()` raises) or a decoded envelope carrying the
candidate texts; each candidate yields `some text` exactly when the
`['content']['parts'][0]['text']` path exists. -/
inductive GeminiBody where
  | malformed
  | envelope (candidates : List (Option String))

/-- Outcome of the HTTP call itself: the request raised (network error), or
a response with a status code and body arrived. -/
inductive ApiOutcome where
  | netError
  | http (status : Nat) (body : GeminiBody)

/-- `true` exactly when `_call_gemini_api` takes one of its failure paths:
the request raised, the status is not 200, the body is not decodable, there
are no candidates, or the first candidate has no text. -/
def api_failed (o : ApiOutcome) : Bool :=
  match o with
  | .netError => true
  | .http status body =>
    if status = 200 then
      match body with
      | .malformed => true
      | .envelope [] => true
      | .envelope (c :: _) => c.isNone
    else true

/-- `_call_gemini_api` (lines 235-263 of `main.py`): on a 200 response with
a first candidate text, return it; every failure path (network error,
non-200 status, undecodable body, missing candidates, missing text — all
raised and caught by the blanket `except`) returns the fixed fallback text.
The prompt never influences the result; no failure is re-raised. -/
def call_gemini_api (prompt : String) (o : ApiOutcome) : String :=
  match o with
  | .netError => get_fallback_response
  | .http status body =>
    if status = 200 then
      match body with
      | .malformed => get_fallback_response
      | .envelope [] => get_fallback_response
      | .envelope (c :: _) =>
        match c with
        | some text => text
        | none => get_fallback_response
    else get_fallback_response

/-- A propagated Python exception: the explicit `raise ValueError(msg)`
precondition rejections, an `HTTPException(status)` from the endpoint
layer, or any other exception (`TypeError`, `JSONDecodeError`, ...). -/
inductive PyErr where
  | valueError (msg : String)
  | httpError (status : Nat)
  | otherError

/-- One stored history entry (the dict appended to `design_history`). -/
structure DesignVersion where
  version : Nat
  blueprint : Json
  feedback : String
  timestamp : String
  changes_made : List String
  current_floor : Int

/-- The mutable fields of a `GeminiBlueprintGenerator`. -/
structure GeneratorState where
  design_history : List DesignVersion
  current_floor : Int

/-- The generator as constructed at import time. -/
def initGenerator : GeneratorState :=
  { design_history := [], current_floor := 1 }

/-- The versions stored in a history, in order. -/
def versionsOf (history : List DesignVersion) : List Nat :=
  history.map DesignVersion.version

/-- `generate_initial_blueprint`: run prompt → gateway → extraction →
normalization and append a version-1 entry.  The prompt text (built by
`_generate_initial_prompt`) does not influence the gateway's outcome and is
elided.  Note that the version is the constant `1` and the history is not
required to be empty. -/
def generate_initial_blueprint (st : GeneratorState) (o : ApiOutcome) (ts : String)
    (req : BuildingRequirements) : Except PyErr (GeneratorState × Json) :=
  match parse_blueprint_response (call_gemini_api "" o) with
  | none => .error .otherError
  | some bp =>
    match validate_and_fix_blueprint bp (some req) with
    | none => .error .otherError
    | some bp' =>
      .ok ({ st with design_history := st.design_history ++
               [{ version := 1, blueprint := bp', feedback := "Initial generation",
                  timestamp := ts, changes_made := ["Initial creation"],
                  current_floor := 1 }] }, bp')

/-- `iterate_design`: reject when there is no history, else run the
pipeline on the feedback prompt and append an entry with version
`len(history) + 1` and the generator's remembered current floor. -/
def iterate_design (st : GeneratorState) (o : ApiOutcome) (ts feedback : String) :
    Except PyErr (GeneratorState × Json) :=
  match st.design_history with
  | [] => .error (.valueError "No existing design to iterate on")
  | _ :: _ =>
    match parse_blueprint_response (call_gemini_api "" o) with
    | none => .error .otherError
    | some bp =>
      match validate_and_fix_blueprint bp none with
      | none => .error .otherError
      | some bp' =>
        .ok ({ st with design_history := st.design_history ++
                 [{ version := st.design_history.length + 1, blueprint := bp',
                    feedback := feedback, timestamp := ts,
                    changes_made := ["User feedback integration"],
                    current_floor := st.current_floor }] }, bp')

/-- `optimize_design`: same shape as `iterate_design` with the optimization
prompt, feedback text `"Optimization for: " ++ goals` and change note
`"Design optimization"`. -/
def optimize_design (st : GeneratorState) (o : ApiOutcome) (ts : String)
    (goals : List String) : Except PyErr (GeneratorState × Json) :=
  match st.design_history with
  | [] => .error (.valueError "No existing design to optimize")
  | _ :: _ =>
    match parse_blueprint_response (call_gemini_api "" o) with
    | none => .error .otherError
    | some bp =>
      match validate_and_fix_blueprint bp none with
      | none => .error .otherError
      | some bp' =>
        .ok ({ st with design_history := st.design_history ++
                 [{ version := st.design_history.length + 1, blueprint := bp',
                    feedback := "Optimization for: " ++ String.intercalate ", " goals,
                    timestamp := ts, changes_made := ["Design optimization"],
                    current_floor := st.current_floor }] }, bp')

/-- `update_floor_view`: reject when there is no history; otherwise
remember the floor, overwrite `current_floor` of the latest entry in
place, and return the latest blueprint unchanged.  Nothing is appended and
the floor number is not validated. -/
def update_floor_view (st : GeneratorState) (floor_number : Int) :
    Except PyErr (GeneratorState × Json) :=
  match st.design_history.getLast? with
  | none => .error (.valueError "No existing design to view")
  | some last =>
    .ok ({ design_history :=
             st.design_history.dropLast ++ [{ last with current_floor := floor_number }],
           current_floor := floor_number }, last.blueprint)

/-- The `/api/current-floor` read: `history[-1].get("current_floor", 1)`,
with `1` for an empty history. -/
def get_current_floor (history : List DesignVersion) : Int :=
  match history.getLast? with
  | some dv => dv.current_floor
  | none => 1

/-- The process-wide state of the service: the single shared generator and
the per-session store `design_storage`. -/
structure ServerState where
  generator : GeneratorState
  storage : List (String × List DesignVersion)

/-- The server as it boots. -/
def initServer : ServerState :=
  { generator := initGenerator, storage := [] }

/-- The `/api/generate` endpoint: reject unknown building types with a 400,
then run the shared generator's `generate_initial_blueprint` — without
resetting its history — and store a copy of the resulting history under the
fresh session id. -/
def api_generate (srv : ServerState) (session_id : String) (o : ApiOutcome)
    (ts : String) (req : BuildingRequirements) : Except PyErr (ServerState × Json) :=
  if BUILDING_TYPES.contains req.building_type then
    match generate_initial_blueprint srv.generator o ts req with
    | .ok (g', bp) =>
      .ok ({ generator := g', storage := setk srv.storage session_id g'.design_history }, bp)
    | .error e => .error e
  else .error (.httpError 400)

/-- The version list of one session's stored history. -/
def session_versions (srv : ServerState) (session_id : String) : Option (List Nat) :=
  (getk srv.storage session_id).map versionsOf

/-- Direction computation as the specification words it: `|x|>5` and
`|y|>5` select a diagonal by the sign combination; else `|x|>2` selects
East/West; else `|y|>2` selects North/South; else Center. -/
def spec_direction (x y : Rat) : String :=
  if 5 < |x| ∧ 5 < |y| then
    if x < 0 then (if 0 < y then "Northwest" else "Southwest")
    else if 0 < y then "Northeast" else "Southeast"
  else if 2 < |x| then (if x < 0 then "West" else "East")
  else if 2 < |y| then (if 0 < y then "North" else "South")
  else "Center"

/-- Splitting `a < |x|` into the two sign cases, oriented so that the
resulting atoms mention `-a` rather than `-x`. -/
theorem lt_abs_split (a x : Rat) : a < |x| ↔ x < -a ∨ a < x := by
  rw [lt_abs]
  constructor
  · rintro (h | h)
    · exact Or.inr h
    · exact Or.inl (by linarith)
  · rintro (h | h)
    · exact Or.inr (by linarith)
    · exact Or.inl h

set_option maxHeartbeats 1600000 in
/-- C2: `_calculate_room_direction`'s threshold cascade is exactly the
specification's nested-threshold rule (diagonals first by sign combination
when both |x|>5 and |y|>5, then the single-axis bands, then Center), and it
maps the nine sample positions to the nine claimed directions. -/
theorem direction_matches_spec :
    (∀ x y : Rat, direction_from_xy x y = spec_direction x y) ∧
    direction_from_xy (-8) 8 = "Northwest" ∧
    direction_from_xy 8 8 = "Northeast" ∧
    direction_from_xy (-8) (-8) = "Southwest" ∧
    direction_from_xy 8 (-8) = "Southeast" ∧
    direction_from_xy (-3) 0 = "West" ∧
    direction_from_xy 3 0 = "East" ∧
    direction_from_xy 0 3 = "North" ∧
    direction_from_xy 0 (-3) = "South" ∧
    direction_from_xy 0 0 = "Center" := by
  refine ⟨?_, by decide, by decide, by decide, by decide, by decide, by decide,
    by decide, by decide, by decide⟩
  intro x y
  simp only [direction_from_xy, spec_direction, lt_abs_split]
  by_cases hA : x < -5 <;>
    by_cases hB : (5 : Rat) < x <;>
    (try (exfalso; linarith)) <;>
    by_cases hC : x < -2 <;>
    (try (exfalso; linarith)) <;>
    by_cases hD : (2 : Rat) < x <;>
    (try (exfalso; linarith)) <;>
    by_cases hE : x < 0 <;>
    (try (exfalso; linarith)) <;>
    by_cases hF : y < -5 <;>
    by_cases hG : (5 : Rat) < y <;>
    (try (exfalso; linarith)) <;>
    by_cases hH : y < -2 <;>
    (try (exfalso; linarith)) <;>
    by_cases hI : (2 : Rat) < y <;>
    (try (exfalso; linarith)) <;>
    by_cases hJ : (0 : Rat) < y <;>
    first
      | (exfalso; linarith)
      | simp [hA, hB, hC, hD, hE, hF, hG, hH, hI, hJ]

/-- Every failure path of the gateway returns the fallback text. -/
theorem call_failed_eq_fallback :
    ∀ (prompt : String) (o : ApiOutcome),
      api_failed o = true → call_gemini_api prompt o = get_fallback_response := by
  intro prompt o ho
  match o with
  | .netError => rfl
  | .http status body =>
    simp only [call_gemini_api, api_failed] at *
    by_cases hs : status = 200
    · simp only [hs, if_true, if_pos] at *
      match body with
      | .malformed => rfl
      | .envelope [] => rfl
      | .envelope (c :: rest) =>
        match c with
        | some text => simp at ho
        | none => rfl
    · simp [hs]

/-- C4: whenever the external call fails in any modelled way, the gateway
returns the fixed fallback text — and any two failures (for any prompts)
yield byte-identical text, so a model failure never surfaces as an error. -/
theorem gateway_failure_returns_fallback :
    (∀ (prompt : String) (o : ApiOutcome),
       api_failed o = true → call_gemini_api prompt o = get_fallback_response) ∧
    (∀ (p1 p2 : String) (o1 o2 : ApiOutcome),
       api_failed o1 = true → api_failed o2 = true →
       call_gemini_api p1 o1 = call_gemini_api p2 o2) :=
  ⟨call_failed_eq_fallback,
   fun p1 p2 o1 o2 h1 h2 =>
     (call_failed_eq_fallback p1 o1 h1).trans (call_failed_eq_fallback p2 o2 h2).symm⟩

/-- Witness for C4 at two concrete failures: a network error and a 500
status with an undecodable body. -/
theorem gateway_failure_returns_fallback_witness :
    api_failed .netError = true ∧ api_failed (.http 500 .malformed) = true ∧
    call_gemini_api "p" .netError = get_fallback_response ∧
    call_gemini_api "p" .netError = call_gemini_api "q" (.http 500 .malformed) := by
  refine ⟨rfl, rfl, ?_, ?_⟩
  · exact gateway_failure_returns_fallback.1 "p" .netError rfl
  · exact gateway_failure_returns_fallback.2 "p" "q" .netError (.http 500 .malformed) rfl rfl

/-- A non-empty list splits off its last element. -/
theorem exists_concat_of_ne_nil {α : Type} (l : List α) (h : l ≠ []) :
    ∃ l' a, l = l' ++ [a] := by
  induction l with
  | nil => exact absurd rfl h
  | cons x t ih =>
    match t, ih with
    | [], _ => exact ⟨[], x, rfl⟩
    | y :: t', ih =>
      obtain ⟨l', a, he⟩ := ih (by simp)
      exact ⟨x :: l', a, by rw [he]; rfl⟩

/-- C7: on a non-empty history, `update_floor_view n` appends nothing — it
only overwrites `current_floor` of the latest entry (lengths, the earlier
entries and all version numbers are unchanged), remembers `n`, and returns
the latest blueprint; a second identical call returns the same blueprint,
and the reported current floor is `n` after each call. -/
theorem floor_view_mutates_latest_only :
    ∀ (st : GeneratorState) (n : Int), st.design_history ≠ [] →
    ∃ last st1 b1,
      st.design_history.getLast? = some last ∧
      update_floor_view st n = .ok (st1, b1) ∧
      b1 = last.blueprint ∧
      st1.design_history.length = st.design_history.length ∧
      st1.design_history.dropLast = st.design_history.dropLast ∧
      st1.design_history.getLast? = some { last with current_floor := n } ∧
      versionsOf st1.design_history = versionsOf st.design_history ∧
      st1.current_floor = n ∧
      get_current_floor st1.design_history = n ∧
      ∃ st2 b2, update_floor_view st1 n = .ok (st2, b2) ∧ b2 = b1 ∧
        get_current_floor st2.design_history = n := by
  intro st n h
  obtain ⟨l', last, he⟩ := exists_concat_of_ne_nil st.design_history h
  have hlast : st.design_history.getLast? = some last := by
    rw [he]; exact List.getLast?_concat _
  refine ⟨last,
    { design_history := st.design_history.dropLast ++ [{ last with current_floor := n }],
      current_floor := n }, last.blueprint, hlast, ?_, rfl, ?_, ?_, ?_, ?_, rfl, ?_, ?_⟩
  · simp only [update_floor_view, hlast]
  · simp [he]
  · simp [he, List.dropLast_concat]
  · simp [he, List.getLast?_concat]
  · simp [versionsOf, he, List.dropLast_concat]
  · simp [get_current_floor, he, List.dropLast_concat, List.getLast?_concat]
  · refine ⟨{ design_history := st.design_history.dropLast ++ [{ last with current_floor := n }],
              current_floor := n }, last.blueprint, ?_, rfl, ?_⟩
    · simp only [update_floor_view, he, List.dropLast_concat, List.getLast?_concat]
    · simp [get_current_floor, he, List.dropLast_concat, List.getLast?_concat]

/-- A one-entry generator state used to instantiate the floor-view
theorems. -/
def demo_entry : DesignVersion :=
  { version := 1, blueprint := .obj [], feedback := "Initial generation",
    timestamp := "t", changes_made := ["Initial creation"], current_floor := 1 }

/-- A generator state with exactly `demo_entry` in its history. -/
def demoState : GeneratorState :=
  { design_history := [demo_entry], current_floor := 1 }

/-- Witness for C7 at the concrete one-entry state and floor 3. -/
theorem floor_view_mutates_latest_only_witness :
    (demoState.design_history ≠ []) ∧
    (∃ last st1 b1,
      demoState.design_history.getLast? = some last ∧
      update_floor_view demoState 3 = .ok (st1, b1) ∧
      b1 = last.blueprint ∧
      st1.design_history.length = demoState.design_history.length ∧
      st1.design_history.dropLast = demoState.design_history.dropLast ∧
      st1.design_history.getLast? = some { last with current_floor := 3 } ∧
      versionsOf st1.design_history = versionsOf demoState.design_history ∧
      st1.current_floor = 3 ∧
      get_current_floor st1.design_history = 3 ∧
      ∃ st2 b2, update_floor_view st1 3 = .ok (st2, b2) ∧ b2 = b1 ∧
        get_current_floor st2.design_history = 3) :=
  ⟨by simp [demoState], floor_view_mutates_latest_only demoState 3 (by simp [demoState])⟩

/-- C10: `update_floor_view` validates nothing about its argument: for any
integer floor number — 0, negative, or beyond the number of floors — it
succeeds on a non-empty history, reports exactly that number, and returns
the latest blueprint. -/
theorem floor_view_accepts_any_int :
    ∀ (st : GeneratorState) (n : Int), st.design_history ≠ [] →
    ∃ st' bp last,
      update_floor_view st n = .ok (st', bp) ∧
      st'.current_floor = n ∧
      get_current_floor st'.design_history = n ∧
      st.design_history.getLast? = some last ∧
      bp = last.blueprint := by
  intro st n h
  obtain ⟨l', last, he⟩ := exists_concat_of_ne_nil st.design_history h
  have hlast : st.design_history.getLast? = some last := by
    rw [he]; exact List.getLast?_concat _
  refine ⟨{ design_history := st.design_history.dropLast ++ [{ last with current_floor := n }],
            current_floor := n }, last.blueprint, last, ?_, rfl, ?_, hlast, rfl⟩
  · simp only [update_floor_view, hlast]
  · simp [get_current_floor, he, List.dropLast_concat, List.getLast?_concat]

/-- Witness for C10 at the concrete one-entry state and the out-of-range
floor number `-7`. -/
theorem floor_view_accepts_any_int_witness :
    (demoState.design_history ≠ []) ∧
    (∃ st' bp last,
      update_floor_view demoState (-7) = .ok (st', bp) ∧
      st'.current_floor = -7 ∧
      get_current_floor st'.design_history = -7 ∧
      demoState.design_history.getLast? = some last ∧
      bp = last.blueprint) :=
  ⟨by simp [demoState], floor_view_accepts_any_int demoState (-7) (by simp [demoState])⟩

set_option maxRecDepth 100000 in
/-- The fallback text survives the whole extraction-and-normalization
pipeline: its parse succeeds and the parsed document normalizes
successfully.  (Established once by kernel evaluation; several theorems
below rely on it.) -/
theorem fallback_pipeline_ok :
    ((parse_blueprint_response get_fallback_response).bind
       (fun bp => validate_and_fix_blueprint bp none)).isSome = true := by rfl

set_option maxRecDepth 100000 in
/-- The canonical fallback document itself also survives normalization
(needed for the substitution taken when a *successful* call returns
unparseable text; established once by kernel evaluation). -/
theorem canonical_fallback_validates :
    (canonical_fallback_doc.bind
       (fun bp => validate_and_fix_blueprint bp none)).isSome = true := by rfl

/-- C9: `iterate_design`, `optimize_design` and `update_floor_view` raise
the explicit "no existing design ..." `ValueError` exactly when the history
is empty (with the three exact messages), and on a non-empty history
neither kind of pipeline failure is surfaced: a failed model call, and
equally a successful call whose returned text fails to parse, both make
the operation succeed by falling back to the canonical document. -/
theorem precondition_rejections :
    (∀ (st : GeneratorState) (o : ApiOutcome) (ts fb : String),
       (∃ m, iterate_design st o ts fb = .error (.valueError m)) ↔ st.design_history = []) ∧
    (∀ (st : GeneratorState) (o : ApiOutcome) (ts : String) (gs : List String),
       (∃ m, optimize_design st o ts gs = .error (.valueError m)) ↔ st.design_history = []) ∧
    (∀ (st : GeneratorState) (n : Int),
       (∃ m, update_floor_view st n = .error (.valueError m)) ↔ st.design_history = []) ∧
    (∀ (st : GeneratorState) (o : ApiOutcome) (ts fb : String), st.design_history = [] →
       iterate_design st o ts fb = .error (.valueError "No existing design to iterate on")) ∧
    (∀ (st : GeneratorState) (o : ApiOutcome) (ts : String) (gs : List String),
       st.design_history = [] →
       optimize_design st o ts gs = .error (.valueError "No existing design to optimize")) ∧
    (∀ (st : GeneratorState) (n : Int), st.design_history = [] →
       update_floor_view st n = .error (.valueError "No existing design to view")) ∧
    (∀ (st : GeneratorState) (o : ApiOutcome) (ts fb : String), st.design_history ≠ [] →
       api_failed o = true → ∃ r, iterate_design st o ts fb = .ok r) ∧
    (∀ (st : GeneratorState) (o : ApiOutcome) (ts : String) (gs : List String),
       st.design_history ≠ [] → api_failed o = true →
       ∃ r, optimize_design st o ts gs = .ok r) ∧
    (∀ (st : GeneratorState) (o : ApiOutcome) (ts fb : String), st.design_history ≠ [] →
       Json.parse (extract_json_str (call_gemini_api "" o).data) = none →
       ∃ r, iterate_design st o ts fb = .ok r) ∧
    (∀ (st : GeneratorState) (o : ApiOutcome) (ts : String) (gs : List String),
       st.design_history ≠ [] →
       Json.parse (extract_json_str (call_gemini_api "" o).data) = none →
       ∃ r, optimize_design st o ts gs = .ok r) := by
  have hiter : ∀ (st : GeneratorState) (o : ApiOutcome) (ts fb : String),
      (∃ m, iterate_design st o ts fb = .error (.valueError m)) ↔ st.design_history = [] := by
    intro st o ts fb
    rcases hd : st.design_history with _ | ⟨d, t⟩
    · refine ⟨fun _ => rfl, fun _ => ⟨"No existing design to iterate on", ?_⟩⟩
      simp only [iterate_design, hd]
    · constructor
      · rintro ⟨m, hm⟩
        simp only [iterate_design, hd] at hm
        cases hp : parse_blueprint_response (call_gemini_api "" o) with
        | none => simp only [hp] at hm; exact absurd hm (by simp)
        | some bp =>
          simp only [hp] at hm
          cases hv : validate_and_fix_blueprint bp none with
          | none => simp only [hv] at hm; exact absurd hm (by simp)
          | some bp' => simp only [hv] at hm; exact absurd hm (by simp)
      · intro hfalse
        exact absurd hfalse (by simp)
  have hopt : ∀ (st : GeneratorState) (o : ApiOutcome) (ts : String) (gs : List String),
      (∃ m, optimize_design st o ts gs = .error (.valueError m)) ↔ st.design_history = [] := by
    intro st o ts gs
    rcases hd : st.design_history with _ | ⟨d, t⟩
    · refine ⟨fun _ => rfl, fun _ => ⟨"No existing design to optimize", ?_⟩⟩
      simp only [optimize_design, hd]
    · constructor
      · rintro ⟨m, hm⟩
        simp only [optimize_design, hd] at hm
        cases hp : parse_blueprint_response (call_gemini_api "" o) with
        | none => simp only [hp] at hm; exact absurd hm (by simp)
        | some bp =>
          simp only [hp] at hm
          cases hv : validate_and_fix_blueprint bp none with
          | none => simp only [hv] at hm; exact absurd hm (by simp)
          | some bp' => simp only [hv] at hm; exact absurd hm (by simp)
      · intro hfalse
        exact absurd hfalse (by simp)
  have hview : ∀ (st : GeneratorState) (n : Int),
      (∃ m, update_floor_view st n = .error (.valueError m)) ↔ st.design_history = [] := by
    intro st n
    rcases hl : st.design_history.getLast? with _ | last
    · refine ⟨fun _ => List.getLast?_eq_none_iff.mp hl,
              fun _ => ⟨"No existing design to view", ?_⟩⟩
      simp only [update_floor_view, hl]
    · constructor
      · rintro ⟨m, hm⟩
        simp only [update_floor_view, hl] at hm
        exact absurd hm (by simp)
      · intro hfalse
        rw [hfalse] at hl
        exact absurd hl (by simp)
  have hpipe : ∀ (o : ApiOutcome), api_failed o = true →
      ∃ bp bp', parse_blueprint_response (call_gemini_api "" o) = some bp ∧
        validate_and_fix_blueprint bp none = some bp' := by
    intro o ho
    rw [call_failed_eq_fallback "" o ho]
    have h := fallback_pipeline_ok
    cases hp : parse_blueprint_response get_fallback_response with
    | none => rw [hp] at h; exact absurd h (by simp)
    | some bp =>
      rw [hp] at h
      have h2 : (validate_and_fix_blueprint bp none).isSome = true := h
      cases hv : validate_and_fix_blueprint bp none with
      | none => rw [hv] at h2; exact absurd h2 (by simp)
      | some bp' => exact ⟨bp, bp', rfl, hv⟩
  have hpipe2 : ∀ (t : String), Json.parse (extract_json_str t.data) = none →
      ∃ bp bp', parse_blueprint_response t = some bp ∧
        validate_and_fix_blueprint bp none = some bp' := by
    intro t ht
    have hcan : parse_blueprint_response t = canonical_fallback_doc := by
      simp only [parse_blueprint_response, ht]
      rfl
    have h := canonical_fallback_validates
    rw [hcan]
    cases hp : canonical_fallback_doc with
    | none => rw [hp] at h; exact absurd h (by simp)
    | some bp =>
      rw [hp] at h
      have h2 : (validate_and_fix_blueprint bp none).isSome = true := h
      cases hv : validate_and_fix_blueprint bp none with
      | none => rw [hv] at h2; exact absurd h2 (by simp)
      | some bp' => exact ⟨bp, bp', rfl, hv⟩
  refine ⟨hiter, hopt, hview, ?_, ?_, ?_, ?_, ?_, ?_, ?_⟩
  · intro st o ts fb hd
    simp only [iterate_design, hd]
  · intro st o ts gs hd
    simp only [optimize_design, hd]
  · intro st n hd
    simp only [update_floor_view, hd, List.getLast?_nil]
  · intro st o ts fb hne ho
    obtain ⟨bp, bp', hp, hv⟩ := hpipe o ho
    rcases hd : st.design_history with _ | ⟨d, t⟩
    · exact absurd hd hne
    · refine ⟨({ st with design_history := st.design_history ++
          [{ version := st.design_history.length + 1, blueprint := bp',
             feedback := fb, timestamp := ts,
             changes_made := ["User feedback integration"],
             current_floor := st.current_floor }] }, bp'), ?_⟩
      simp only [iterate_design, hd, hp, hv]
  · intro st o ts gs hne ho
    obtain ⟨bp, bp', hp, hv⟩ := hpipe o ho
    rcases hd : st.design_history with _ | ⟨d, t⟩
    · exact absurd hd hne
    · refine ⟨({ st with design_history := st.design_history ++
          [{ version := st.design_history.length + 1, blueprint := bp',
             feedback := "Optimization for: " ++ String.intercalate ", " gs,
             timestamp := ts, changes_made := ["Design optimization"],
             current_floor := st.current_floor }] }, bp'), ?_⟩
      simp only [optimize_design, hd, hp, hv]
  · intro st o ts fb hne ht
    obtain ⟨bp, bp', hp, hv⟩ := hpipe2 (call_gemini_api "" o) ht
    rcases hd : st.design_history with _ | ⟨d, t⟩
    · exact absurd hd hne
    · refine ⟨({ st with design_history := st.design_history ++
          [{ version := st.design_history.length + 1, blueprint := bp',
             feedback := fb, timestamp := ts,
             changes_made := ["User feedback integration"],
             current_floor := st.current_floor }] }, bp'), ?_⟩
      simp only [iterate_design, hd, hp, hv]
  · intro st o ts gs hne ht
    obtain ⟨bp, bp', hp, hv⟩ := hpipe2 (call_gemini_api "" o) ht
    rcases hd : st.design_history with _ | ⟨d, t⟩
    · exact absurd hd hne
    · refine ⟨({ st with design_history := st.design_history ++
          [{ version := st.design_history.length + 1, blueprint := bp',
             feedback := "Optimization for: " ++ String.intercalate ", " gs,
             timestamp := ts, changes_made := ["Design optimization"],
             current_floor := st.current_floor }] }, bp'), ?_⟩
      simp only [optimize_design, hd, hp, hv]

/-- A successful call (status 200, candidate text present) whose text is
not parseable as JSON. -/
def parse_fail_outcome : ApiOutcome := .http 200 (.envelope [some "not json"])

/-- Witness for C9: the empty-history generator is rejected with the exact
message; the one-entry generator succeeds both under a network failure and
under a successful call whose text fails to parse. -/
theorem precondition_rejections_witness :
    (initGenerator.design_history = []) ∧
    (iterate_design initGenerator .netError "t" "x" =
      .error (.valueError "No existing design to iterate on")) ∧
    (demoState.design_history ≠ []) ∧ (api_failed .netError = true) ∧
    (∃ r, iterate_design demoState .netError "t" "fb" = .ok r) ∧
    (api_failed parse_fail_outcome = false) ∧
    (Json.parse (extract_json_str (call_gemini_api "" parse_fail_outcome).data) = none) ∧
    (∃ r, iterate_design demoState parse_fail_outcome "t" "fb" = .ok r) :=
  ⟨rfl, precondition_rejections.2.2.2.1 initGenerator .netError "t" "x" rfl,
   by simp [demoState],
   rfl,
   precondition_rejections.2.2.2.2.2.2.1 demoState .netError "t" "fb"
     (by simp [demoState]) rfl,
   rfl,
   rfl,
   precondition_rejections.2.2.2.2.2.2.2.2.1 demoState parse_fail_outcome "t" "fb"
     (by simp [demoState]) rfl⟩

/-- Shape of a successful initial generation: exactly one entry with the
constant version 1 is appended, whatever the history already contained. -/
theorem generate_shape (st : GeneratorState) (o : ApiOutcome) (ts : String)
    (req : BuildingRequirements) (st' : GeneratorState) (bp : Json)
    (h : generate_initial_blueprint st o ts req = .ok (st', bp)) :
    st'.design_history = st.design_history ++
      [{ version := 1, blueprint := bp, feedback := "Initial generation",
         timestamp := ts, changes_made := ["Initial creation"], current_floor := 1 }] := by
  unfold generate_initial_blueprint at h
  cases hp : parse_blueprint_response (call_gemini_api "" o) with
  | none => simp only [hp] at h; exact absurd h (by simp)
  | some bpj =>
    simp only [hp] at h
    cases hvb : validate_and_fix_blueprint bpj (some req) with
    | none => simp only [hvb] at h; exact absurd h (by simp)
    | some bp2 =>
      simp only [hvb, Except.ok.injEq, Prod.mk.injEq] at h
      obtain ⟨h1, h2⟩ := h
      subst h1
      subst h2
      rfl

/-- Shape of a successful iteration: one entry with version
`len(history) + 1` is appended and the remembered floor is kept. -/
theorem iterate_shape (st : GeneratorState) (o : ApiOutcome) (ts fb : String)
    (st' : GeneratorState) (bp : Json)
    (h : iterate_design st o ts fb = .ok (st', bp)) :
    st'.design_history = st.design_history ++
      [{ version := st.design_history.length + 1, blueprint := bp, feedback := fb,
         timestamp := ts, changes_made := ["User feedback integration"],
         current_floor := st.current_floor }] := by
  unfold iterate_design at h
  rcases hd : st.design_history with _ | ⟨d, t⟩
  · simp only [hd] at h
    exact absurd h (by simp)
  · simp only [hd] at h
    cases hp : parse_blueprint_response (call_gemini_api "" o) with
    | none => simp only [hp] at h; exact absurd h (by simp)
    | some bpj =>
      simp only [hp] at h
      cases hvb : validate_and_fix_blueprint bpj none with
      | none => simp only [hvb] at h; exact absurd h (by simp)
      | some bp2 =>
        simp only [hvb, Except.ok.injEq, Prod.mk.injEq] at h
        obtain ⟨h1, h2⟩ := h
        subst h1
        subst h2
        simp [hd]

/-- Shape of a successful optimization: same as iteration. -/
theorem optimize_shape (st : GeneratorState) (o : ApiOutcome) (ts : String)
    (gs : List String) (st' : GeneratorState) (bp : Json)
    (h : optimize_design st o ts gs = .ok (st', bp)) :
    st'.design_history = st.design_history ++
      [{ version := st.design_history.length + 1, blueprint := bp,
         feedback := "Optimization for: " ++ String.intercalate ", " gs,
         timestamp := ts, changes_made := ["Design optimization"],
         current_floor := st.current_floor }] := by
  unfold optimize_design at h
  rcases hd : st.design_history with _ | ⟨d, t⟩
  · simp only [hd] at h
    exact absurd h (by simp)
  · simp only [hd] at h
    cases hp : parse_blueprint_response (call_gemini_api "" o) with
    | none => simp only [hp] at h; exact absurd h (by simp)
    | some bpj =>
      simp only [hp] at h
      cases hvb : validate_and_fix_blueprint bpj none with
      | none => simp only [hvb] at h; exact absurd h (by simp)
      | some bp2 =>
        simp only [hvb, Except.ok.injEq, Prod.mk.injEq] at h
        obtain ⟨h1, h2⟩ := h
        subst h1
        subst h2
        simp [hd]

/-- Shape of a successful floor-view update: the history keeps its earlier
entries and only the last entry's `current_floor` changes. -/
theorem update_shape (st : GeneratorState) (n : Int) (st' : GeneratorState) (bp : Json)
    (h : update_floor_view st n = .ok (st', bp)) :
    ∃ last, st.design_history.getLast? = some last ∧
      st'.design_history = st.design_history.dropLast ++ [{ last with current_floor := n }] ∧
      bp = last.blueprint := by
  unfold update_floor_view at h
  cases hl : st.design_history.getLast? with
  | none => simp only [hl] at h; exact absurd h (by simp)
  | some last =>
    simp only [hl, Except.ok.injEq, Prod.mk.injEq] at h
    obtain ⟨h1, h2⟩ := h
    subst h1
    subst h2
    exact ⟨last, rfl, rfl, rfl⟩

/-- Histories reachable when `generate_initial_blueprint` is only ever run
on an empty history (one create, first), with any mix of the other three
operations afterwards. -/
inductive ReachableG : GeneratorState → Prop where
  | init : ReachableG initGenerator
  | generate {st st' : GeneratorState} {bp : Json} {o : ApiOutcome} {ts : String}
      {req : BuildingRequirements} : ReachableG st → st.design_history = [] →
      generate_initial_blueprint st o ts req = .ok (st', bp) → ReachableG st'
  | iterate {st st' : GeneratorState} {bp : Json} {o : ApiOutcome} {ts fb : String} :
      ReachableG st → iterate_design st o ts fb = .ok (st', bp) → ReachableG st'
  | optimize {st st' : GeneratorState} {bp : Json} {o : ApiOutcome} {ts : String}
      {gs : List String} : ReachableG st → optimize_design st o ts gs = .ok (st', bp) →
      ReachableG st'
  | setFloor {st st' : GeneratorState} {bp : Json} {n : Int} : ReachableG st →
      update_floor_view st n = .ok (st', bp) → ReachableG st'

/-- C3 (amended): as long as create is only applied to an empty history,
every reachable history carries the versions `1, 2, …, len` exactly; each
iterate/optimize append grows the history by one and stamps the new last
entry with `len(history)` as of after the append; `update_floor_view`
changes neither the length nor any version. -/
theorem version_numbering_guarded :
    (∀ st : GeneratorState, ReachableG st →
       versionsOf st.design_history = List.range' 1 st.design_history.length) ∧
    (∀ (st : GeneratorState) (o : ApiOutcome) (ts fb : String) (st' : GeneratorState)
       (bp : Json), iterate_design st o ts fb = .ok (st', bp) →
       st'.design_history.length = st.design_history.length + 1 ∧
       (versionsOf st'.design_history).getLast? = some st'.design_history.length) ∧
    (∀ (st : GeneratorState) (o : ApiOutcome) (ts : String) (gs : List String)
       (st' : GeneratorState) (bp : Json), optimize_design st o ts gs = .ok (st', bp) →
       st'.design_history.length = st.design_history.length + 1 ∧
       (versionsOf st'.design_history).getLast? = some st'.design_history.length) ∧
    (∀ (st : GeneratorState) (n : Int) (st' : GeneratorState) (bp : Json),
       update_floor_view st n = .ok (st', bp) →
       st'.design_history.length = st.design_history.length ∧
       versionsOf st'.design_history = versionsOf st.design_history) := by
  have hupd : ∀ (st : GeneratorState) (n : Int) (st' : GeneratorState) (bp : Json),
      update_floor_view st n = .ok (st', bp) →
      st'.design_history.length = st.design_history.length ∧
      versionsOf st'.design_history = versionsOf st.design_history := by
    intro st n st' bp h
    obtain ⟨last, hl, hh, _⟩ := update_shape st n st' bp h
    have hne : st.design_history ≠ [] := by
      intro hx
      rw [hx] at hl
      exact absurd hl (by simp)
    obtain ⟨l', lastx, he⟩ := exists_concat_of_ne_nil st.design_history hne
    have hlx : lastx = last := by
      rw [he, List.getLast?_concat] at hl
      exact (Option.some.injEq _ _).mp hl
    subst hlx
    rw [hh, he, List.dropLast_concat]
    constructor
    · simp
    · simp [versionsOf]
  refine ⟨?_, ?_, ?_, hupd⟩
  · intro st h
    induction h with
    | init => rfl
    | generate hst hemp hop ih =>
      rw [generate_shape _ _ _ _ _ _ hop, hemp]
      rfl
    | @iterate st0 st1 bp o ts fb hst hop ih =>
      rw [iterate_shape _ _ _ _ _ _ hop]
      have hv : versionsOf (st0.design_history ++
          [{ version := st0.design_history.length + 1, blueprint := bp, feedback := fb,
             timestamp := ts, changes_made := ["User feedback integration"],
             current_floor := st0.current_floor }]) =
          versionsOf st0.design_history ++ [st0.design_history.length + 1] := by
        simp [versionsOf]
      rw [hv, ih]
      simp only [List.length_append, List.length_cons, List.length_nil, Nat.zero_add]
      rw [List.range'_1_concat]
      simp [Nat.add_comm]
    | @optimize st0 st1 bp o ts gs hst hop ih =>
      rw [optimize_shape _ _ _ _ _ _ hop]
      have hv : versionsOf (st0.design_history ++
          [{ version := st0.design_history.length + 1, blueprint := bp,
             feedback := "Optimization for: " ++ String.intercalate ", " gs,
             timestamp := ts, changes_made := ["Design optimization"],
             current_floor := st0.current_floor }]) =
          versionsOf st0.design_history ++ [st0.design_history.length + 1] := by
        simp [versionsOf]
      rw [hv, ih]
      simp only [List.length_append, List.length_cons, List.length_nil, Nat.zero_add]
      rw [List.range'_1_concat]
      simp [Nat.add_comm]
    | setFloor hst hop ih =>
      obtain ⟨hlen, hver⟩ := hupd _ _ _ _ hop
      rw [hver, hlen, ih]
  · intro st o ts fb st' bp h
    rw [iterate_shape _ _ _ _ _ _ h]
    constructor
    · simp
    · simp [versionsOf]
  · intro st o ts gs st' bp h
    rw [optimize_shape _ _ _ _ _ _ h]
    constructor
    · simp
    · simp [versionsOf]

/-- A successful model call whose text is the trivial document. -/
def ok_empty_outcome : ApiOutcome := .http 200 (.envelope [some "\x7b\x7d"])

/-- The end-to-end sample requirements of the specification. -/
def reqR : BuildingRequirements :=
  { building_type := "residential_house", total_area := 150, floors := 2,
    occupancy := "family", special_features := [], budget_level := "standard" }

/-- C3 counterexample: two `/api/generate` calls in one process — the
second one runs `generate_initial_blueprint` on the shared generator whose
history was never reset, so the session created second stores the history
`[version 1, version 1]`: version 1 is reused and the versions are not
`1, 2`. -/
theorem version_reuse_counterexample :
    ((api_generate initServer "A" ok_empty_outcome "t" reqR).bind
       (fun p => api_generate p.1 "B" ok_empty_outcome "t" reqR)).toOption.map
      (fun p => session_versions p.1 "B") = some (some [1, 1]) ∧
    [1, 1] ≠ List.range' 1 2 :=
  ⟨rfl, by decide⟩

/-- History entry written by the initial generation of the trivial
document. -/
def demo_entry1 : DesignVersion :=
  { version := 1, blueprint := .obj [], feedback := "Initial generation",
    timestamp := "t", changes_made := ["Initial creation"], current_floor := 1 }

/-- History entry written by one iteration with the trivial document. -/
def demo_entry2 : DesignVersion :=
  { version := 2, blueprint := .obj [], feedback := "fb", timestamp := "t2",
    changes_made := ["User feedback integration"], current_floor := 1 }

/-- The generator after one initial generation of the trivial document. -/
def demoGen : GeneratorState :=
  { design_history := [demo_entry1], current_floor := 1 }

/-- `demoGen` after one iteration with the trivial document. -/
def demoGen2 : GeneratorState :=
  { design_history := [demo_entry1, demo_entry2], current_floor := 1 }

/-- Witness for the amended C3 theorem: a concrete create-then-iterate run
whose versions are `[1]` and then `[1, 2]`. -/
theorem version_numbering_guarded_witness :
    generate_initial_blueprint initGenerator ok_empty_outcome "t" reqR =
      .ok (demoGen, .obj []) ∧
    versionsOf demoGen.design_history = List.range' 1 demoGen.design_history.length ∧
    iterate_design demoGen ok_empty_outcome "t2" "fb" = .ok (demoGen2, .obj []) ∧
    demoGen2.design_history.length = demoGen.design_history.length + 1 ∧
    (versionsOf demoGen2.design_history).getLast? = some demoGen2.design_history.length :=
  ⟨rfl,
   version_numbering_guarded.1 demoGen (@ReachableG.generate initGenerator demoGen (.obj []) ok_empty_outcome "t" reqR ReachableG.init rfl rfl),
   rfl,
   (version_numbering_guarded.2.1 demoGen ok_empty_outcome "t2" "fb" demoGen2 (.obj []) rfl).1,
   (version_numbering_guarded.2.1 demoGen ok_empty_outcome "t2" "fb" demoGen2 (.obj []) rfl).2⟩

set_option maxRecDepth 100000 in
/-- The canonical fallback document parses (established once by kernel
evaluation). -/
theorem canonical_fallback_doc_isSome : canonical_fallback_doc.isSome = true := by rfl

/-- C5: whenever the selected payload fails to parse, extraction returns
the canonical fallback document — the parse of the fixed fallback text,
never a partial structure — and extraction succeeds (never raises) on
every input string. -/
theorem extraction_failure_returns_canonical :
    (∀ s : String, Json.parse (extract_json_str s.data) = none →
       parse_blueprint_response s = canonical_fallback_doc) ∧
    canonical_fallback_doc.isSome = true ∧
    (∀ s : String, (parse_blueprint_response s).isSome = true) := by
  refine ⟨?_, canonical_fallback_doc_isSome, ?_⟩
  · intro s h
    simp only [parse_blueprint_response, h]
    rfl
  · intro s
    simp only [parse_blueprint_response]
    cases h : Json.parse (extract_json_str s.data) with
    | none => exact canonical_fallback_doc_isSome
    | some j => rfl

/-- Witness for C5 at a truncated input. -/
theorem extraction_failure_returns_canonical_witness :
    (Json.parse (extract_json_str "\x7b oops".data) = none) ∧
    (parse_blueprint_response "\x7b oops" = canonical_fallback_doc) :=
  ⟨rfl, extraction_failure_returns_canonical.1 "\x7b oops" rfl⟩

/-- The payload-selection rule exactly as the specification words it: the
region between the opening fence and the next fence, or the *end of the
text* when no closing fence exists. -/
def spec_extract_payload (s : List Char) : List Char :=
  match pyFind s "```json".data 0 with
  | some i =>
    pyStrip (pySlice s (i + 7)
      (match pyFind s "```".data (i + 7) with
       | some e => e
       | none => s.length))
  | none =>
    match pyFind s "```".data 0 with
    | some i =>
      pyStrip (pySlice s (i + 3)
        (match pyFind s "```".data (i + 3) with
         | some e => e
         | none => s.length))
    | none => pyStrip s

/-- The payload-selection rule amended to what the code does: with no
closing fence the region stops one character short of the end (Python
`find` returns `-1` and the slice `[start:-1]` excludes the last
character). -/
def spec_extract_payload_fixed (s : List Char) : List Char :=
  match pyFind s "```json".data 0 with
  | some i =>
    pyStrip (pySlice s (i + 7)
      (match pyFind s "```".data (i + 7) with
       | some e => e
       | none => s.length - 1))
  | none =>
    match pyFind s "```".data 0 with
    | some i =>
      pyStrip (pySlice s (i + 3)
        (match pyFind s "```".data (i + 3) with
         | some e => e
         | none => s.length - 1))
    | none => pyStrip s

/-- C6 counterexample: a `json`-tagged fence with no closing fence.  The
code's payload drops the final `}` (so the parse fails and the fallback is
substituted), while the claimed algorithm would keep the full well-formed
object. -/
theorem extraction_end_counterexample :
    extract_json_str "```json\n\x7b\"a\": 1\x7d".data ≠
      spec_extract_payload "```json\n\x7b\"a\": 1\x7d".data ∧
    extract_json_str "```json\n\x7b\"a\": 1\x7d".data = "\x7b\"a\": 1".data ∧
    spec_extract_payload "```json\n\x7b\"a\": 1\x7d".data = "\x7b\"a\": 1\x7d".data ∧
    parse_blueprint_response "```json\n\x7b\"a\": 1\x7d" = canonical_fallback_doc ∧
    Json.parse (pyStrip "\x7b\"a\": 1\x7d".data) = some (.obj [("a", .num 1)]) :=
  ⟨by decide, rfl, rfl, rfl, rfl⟩

/-- A hit of a longer needle is a hit of any prefix of it. -/
theorem findSubFrom_isSome_of_prefix (n1 n2 : List Char) (hpre : n1 <+: n2) :
    ∀ (hay : List Char) (i : Nat),
      (findSubFrom n2 i hay).isSome = true → (findSubFrom n1 i hay).isSome = true := by
  intro hay
  induction hay with
  | nil =>
    intro i h
    simp only [findSubFrom] at *
    by_cases h2 : n2.isEmpty
    · have : n2 = [] := by cases n2 <;> simp_all
      subst this
      have : n1 = [] := List.prefix_nil.mp hpre
      subst this
      simp
    · simp [h2] at h
  | cons c t ih =>
    intro i h
    simp only [findSubFrom] at *
    by_cases hp1 : n1.isPrefixOf (c :: t)
    · simp [hp1]
    · have hp2 : ¬n2.isPrefixOf (c :: t) := by
        intro hx
        exact hp1 (List.isPrefixOf_iff_prefix.mpr
          (hpre.trans (List.isPrefixOf_iff_prefix.mp hx)))
      simp only [hp2, if_false] at h
      simp only [hp1, if_false]
      simp only [Option.isSome_map] at *
      exact ih (i + 1) h

/-- If the text contains no triple-backtick fence at all, it contains no
`json`-tagged fence either. -/
theorem no_fence_no_json_fence (s : List Char) (h : pyFind s "```".data 0 = none) :
    pyFind s "```json".data 0 = none := by
  by_cases hj : (pyFind s "```json".data 0).isSome = true
  · exfalso
    unfold pyFind at *
    have := findSubFrom_isSome_of_prefix "```".data "```json".data (by decide) (s.drop 0) 0 hj
    rw [h] at this
    simp at this
  · cases hx : pyFind s "```json".data 0 with
    | none => rfl
    | some i => rw [hx] at hj; simp at hj

/-- C6 (amended): the code's payload selection is exactly the
specification's rule with the no-closing-fence bound corrected to exclude
the final character; and on fence-free text whose (stripped) content is
valid JSON, extraction returns exactly that parse. -/
theorem extraction_algorithm :
    (∀ s : List Char, extract_json_str s = spec_extract_payload_fixed s) ∧
    (∀ (s : String) (j : Json), pyFind s.data "```".data 0 = none →
       Json.parse (pyStrip s.data) = some j → parse_blueprint_response s = some j) := by
  constructor
  · intro s
    unfold extract_json_str spec_extract_payload_fixed
    rcases h1 : pyFind s "```json".data 0 with _ | i
    · rcases h2 : pyFind s "```".data 0 with _ | i3
      · rfl
      · rcases h3 : pyFind s "```".data (i3 + 3) with _ | e <;> simp only [h3]
    · rcases h3 : pyFind s "```".data (i + 7) with _ | e <;> simp only [h3]
  · intro s j hf hp
    have hjson := no_fence_no_json_fence s.data hf
    have hex : extract_json_str s.data = pyStrip s.data := by
      unfold extract_json_str
      simp only [hjson, hf]
    simp only [parse_blueprint_response, hex, hp]

/-- Witness for the amended C6 theorem on fence-free valid JSON text. -/
theorem extraction_algorithm_witness :
    (extract_json_str "\x7b\"a\": 1\x7d".data =
      spec_extract_payload_fixed "\x7b\"a\": 1\x7d".data) ∧
    (pyFind "\x7b\"a\": 1\x7d".data "```".data 0 = none) ∧
    (Json.parse (pyStrip "\x7b\"a\": 1\x7d".data) = some (.obj [("a", .num 1)])) ∧
    (parse_blueprint_response "\x7b\"a\": 1\x7d" = some (.obj [("a", .num 1)])) :=
  ⟨extraction_algorithm.1 _, rfl, rfl,
   extraction_algorithm.2 "\x7b\"a\": 1\x7d" (.obj [("a", .num 1)]) rfl rfl⟩

/-- The floor-plan list of a blueprint. -/
def floor_plans_of (bp : Json) : List Json :=
  match bp with
  | .obj kvs =>
    match getk kvs "floor_plans" with
    | some (.arr fps) => fps
    | _ => []
  | _ => []

/-- The `floor_number` values of a blueprint, in order. -/
def floor_numbers (bp : Json) : List Json :=
  (floor_plans_of bp).map fun fp =>
    match fp with
    | .obj f =>
      match getk f "floor_number" with
      | some v => v
      | none => .null
    | _ => .null

/-- The floor plan with the given `floor_number`. -/
def find_floor (bp : Json) (n : Rat) : Option Json :=
  (floor_plans_of bp).find? fun fp =>
    match fp with
    | .obj f =>
      match getk f "floor_number" with
      | some (.num q) => q == n
      | _ => false
    | _ => false

/-- The room with the given name on the given floor. -/
def find_room (bp : Json) (n : Rat) (name : String) : Option Json :=
  (find_floor bp n).bind fun fp =>
    (floorRooms fp).find? fun r =>
      match r with
      | .obj kv =>
        match getk kv "name" with
        | some (.str s) => s == name
        | _ => false
      | _ => false

/-- A room's `direction` value. -/
def room_direction (r : Json) : Option Json :=
  match r with
  | .obj kv => getk kv "direction"
  | _ => none

set_option maxRecDepth 200000 in
/-- C8: the end-to-end scenario.  With the specification's sample
requirements and a forced gateway failure, initial generation returns
exactly the parsed canonical fallback document: floors `[1, 2]` (two
floors regardless of the requested count), a Living Room with direction
`"Center"` and a Kitchen with direction `"East"` on floor 1, a Master
Bedroom with direction `"North"` on floor 2, and a history holding exactly
version 1. -/
theorem fallback_generation_scenario :
    (generate_initial_blueprint initGenerator .netError "2025-01-01T00:00:01" reqR).toOption.map
      (fun p => (some p.2,
                 versionsOf p.1.design_history,
                 floor_numbers p.2,
                 (find_room p.2 1 "Living Room").bind room_direction,
                 (find_room p.2 1 "Kitchen").bind room_direction,
                 (find_room p.2 2 "Master Bedroom").bind room_direction)) =
    some (canonical_fallback_doc, [1], [.num 1, .num 2],
          some (.str "Center"), some (.str "East"), some (.str "North")) := by rfl
